import Mathlib

/-!
Shallow embedding of the study-optimizer core (`api.js`): the plan manager,
the session manager with its per-user pointer document, the analytics
aggregates over the session log, and the burnout scorer.

Modelling conventions:
* Firestore document ids are `Nat`, allocated from a `nextId` counter.
* `serverTimestamp()` values are abstract `Nat` instants supplied as a `now`
  argument; a session's `startedAt` is abstracted to its local calendar day
  (`startedAtDay : Option Int`), `none` modelling a record whose timestamp is
  missing or not convertible (`!ts?.toDate` in the source).  A timestamp range
  filter `startedAt >= midnight(D)` becomes `D ≤ startedAtDay`.
* JavaScript numbers that may be `null`/absent are `Option Int`; `x || d`
  on a number is `jsOr`, which also sends `0` to the default, exactly as the
  source's truthiness test does.
* `throw new Error(msg)` is `Except.error (Err.app msg)`.  A store-level
  failure of `updateDoc`/`WriteBatch.update` applied to a document that does
  not exist (the Firestore update contract) is `Err.storeNotFound`; a batch
  containing such an update commits nothing.
-/

namespace StudyOptimizer

/-- Errors surfaced by the core: `app msg` is a `throw new Error(msg)` in
`api.js`; `storeNotFound` is the document store rejecting an `update` aimed at
a document that does not exist (the whole batch aborts in that case). -/
inductive Err where
  | app (msg : String)
  | storeNotFound
  deriving Repr, DecidableEq

/-- JavaScript `Number(x) || d` applied to an optional number: absent or zero
falls back to the default `d`. -/
def jsOr (o : Option Int) (d : Int) : Int :=
  match o with
  | some n => if n = 0 then d else n
  | none => d

/-- JavaScript `String.prototype.trim()`: drop whitespace from both ends,
modelled on the character list. -/
def jsTrim (s : String) : String :=
  ⟨((s.data.dropWhile Char.isWhitespace).reverse.dropWhile Char.isWhitespace).reverse⟩

/-- Clamp to the inclusive range `[0, 100]`, as in
`Math.max(0, Math.min(100, n))`. -/
def clamp100 (n : Int) : Int := max 0 (min 100 n)

/-- JavaScript `Math.round`: round half away from zero upwards,
`⌊x + 1/2⌋`. -/
def jsRound (q : ℚ) : Int := ⌊q + 1 / 2⌋

/-! ## Session log -/

/-- A session document under `users/{uid}/sessions` (written by
`startSession` and `endSession`). -/
structure Session where
  planId : Option Nat := none
  taskId : Option Nat := none
  mode : String := "pomodoro"
  startedAtDay : Option Int := none
  endedAt : Option Nat := none
  durationMinutes : Int := 0
  status : String := "running"
  plannedMinutes : Option Int := none
  scaledMinutes : Option Int := none
  subject : Option String := none
  burnoutScoreAtStart : Option Int := none
  burnoutScoreAtEnd : Option Int := none
  completed : Bool := false
  deriving Repr, DecidableEq

/-- The load-bearing analytics filter: every aggregate in `api.js` begins its
per-record loop with `if (s.status !== "completed") return; if (s.mode !==
"pomodoro") return;`. -/
def qualifies (s : Session) : Bool :=
  s.status == "completed" && s.mode == "pomodoro"

/-- The range filter `where("startedAt", ">=", Timestamp.fromDate(start))`
under the day abstraction: records with no convertible timestamp never match
a range filter. -/
def inDayRange (startDay : Int) (s : Session) : Bool :=
  match s.startedAtDay with
  | some d => decide (startDay ≤ d)
  | none => false

/-- The filter of `getTodaySessionStats`: `startedAt` in
`[local midnight, next local midnight)`, i.e. the record's day is today. -/
def inTodayRange (today : Int) (s : Session) : Bool :=
  match s.startedAtDay with
  | some d => d == today
  | none => false

/-- Model of `getTodaySessionStats`: over today's fetched sessions, sum
`durationMinutes` and count the qualifying records.  Returns
`(totalMinutes, sessionsCount)`. -/
def getTodaySessionStats (sessions : List Session) (today : Int) : Int × Nat :=
  (sessions.filter (inTodayRange today)).foldl
    (fun acc s =>
      if qualifies s then (acc.1 + s.durationMinutes, acc.2 + 1) else acc)
    (0, 0)

/-- Day keys of the qualifying sessions of a fetched list (the
`daysWithSessions` set of `getStreak`). -/
def dayKeysOf (sessions : List Session) : List Int :=
  sessions.filterMap (fun s => if qualifies s then s.startedAtDay else none)

/-- The backward scan of `getStreak`: `for (let i = 0; i < 365; i++)`,
counting consecutive days present in the day set, stopping at the first
missing day.  The `Nat` argument is the remaining iteration budget. -/
def streakScan (daySet : List Int) : Nat → Int → Nat
  | 0, _ => 0
  | n + 1, d => if daySet.contains d then streakScan daySet n (d - 1) + 1 else 0

/-- Model of `getStreak({lookbackDays})`: fetch the sessions of the lookback
window, build the qualifying day set, scan backwards from today over at most
365 days. -/
def getStreak (sessions : List Session) (lookbackDays : Nat) (today : Int) : Nat :=
  let fetched := sessions.filter (inDayRange (today - lookbackDays))
  streakScan (dayKeysOf fetched) 365 today

/-- JavaScript `m[k] = (m[k] || 0) + v` on an object used as a map: update the
entry if the key is present, otherwise append it. -/
def bumpKey {α : Type} [BEq α] (m : List (α × Int)) (k : α) (v : Int) : List (α × Int) :=
  match m.lookup k with
  | some cur => m.map (fun e => if e.1 == k then (e.1, cur + v) else e)
  | none => m ++ [(k, v)]

/-- Model of `getWeeklyStats`: per-day minute totals of the qualifying
sessions of the trailing 7 days, keyed by day. -/
def getWeeklyStats (sessions : List Session) (today : Int) : List (Int × Int) :=
  (sessions.filter (inDayRange (today - 6))).foldl
    (fun m s =>
      if qualifies s then
        match s.startedAtDay with
        | some d => bumpKey m d s.durationMinutes
        | none => m
      else m)
    []

/-- The ordered window keys of `groupFocusMinutesByDay`: the last `days`
calendar days, oldest first, ending at today. -/
def windowKeys (today : Int) (days : Nat) : List Int :=
  (List.range days).map (fun i => today - ((days : Int) - 1 - (i : Int)))

/-- Model of `groupFocusMinutesByDay(sessions, days)`: zero-fill a map over
the window keys, then add the qualifying sessions' minutes to keys already in
the map (`if (map[key] != null)`). -/
def groupFocusMinutesByDay (sessions : List Session) (days : Nat) (today : Int) :
    List Int × List (Int × Int) :=
  let keys := windowKeys today days
  let init : List (Int × Int) := keys.map (fun k => (k, 0))
  let m := sessions.foldl
    (fun m s =>
      if qualifies s then
        match s.startedAtDay with
        | some d => if (m.lookup d).isSome then bumpKey m d s.durationMinutes else m
        | none => m
      else m)
    init
  (keys, m)

/-- Result record of `getAdvancedInsights`. -/
structure Insights where
  totalActual : Int
  totalPlanned : Int
  totalScaled : Int
  productivity : Int
  focusEfficiency : Int
  avgBurnout : Int
  subjectMap : List (String × Int)
  deriving Repr, DecidableEq

/-- Accumulator of the `getAdvancedInsights` loop. -/
structure InsAcc where
  totalActual : Int := 0
  totalPlanned : Int := 0
  totalScaled : Int := 0
  burnoutValues : List Int := []
  subjectMap : List (String × Int) := []
  deriving Repr, DecidableEq

/-- One iteration of the `getAdvancedInsights` loop over a fetched record. -/
def insightsStep (a : InsAcc) (s : Session) : InsAcc :=
  if qualifies s then
    let actual := s.durationMinutes
    { totalActual := a.totalActual + actual
      totalPlanned := a.totalPlanned + s.plannedMinutes.getD 0
      totalScaled := a.totalScaled + s.scaledMinutes.getD 0
      burnoutValues := a.burnoutValues ++
        (match s.burnoutScoreAtStart with | some b => [b] | none => [])
      subjectMap :=
        match s.subject with
        | some subj => if subj ≠ "" then bumpKey a.subjectMap subj actual else a.subjectMap
        | none => a.subjectMap }
  else a

/-- Model of `getAdvancedInsights({days})`: totals over the window, percentage
ratios guarded against zero denominators, mean of the recorded
`burnoutScoreAtStart` values, and per-subject minute totals. -/
def getAdvancedInsights (sessions : List Session) (days : Nat) (today : Int) : Insights :=
  let fetched := sessions.filter (inDayRange (today - ((days : Int) - 1)))
  let acc := fetched.foldl insightsStep {}
  let productivity : ℚ :=
    if acc.totalPlanned > 0 then (acc.totalActual : ℚ) / (acc.totalPlanned : ℚ) * 100 else 0
  let focusEfficiency : ℚ :=
    if acc.totalScaled > 0 then (acc.totalActual : ℚ) / (acc.totalScaled : ℚ) * 100 else 0
  let avgBurnout : ℚ :=
    if acc.burnoutValues.length > 0 then
      ((acc.burnoutValues.foldl (· + ·) 0 : Int) : ℚ) / (acc.burnoutValues.length : ℚ)
    else 0
  { totalActual := acc.totalActual
    totalPlanned := acc.totalPlanned
    totalScaled := acc.totalScaled
    productivity := jsRound productivity
    focusEfficiency := jsRound focusEfficiency
    avgBurnout := jsRound avgBurnout
    subjectMap := acc.subjectMap }

/-! ## Plans and tasks -/

/-- The `input` payload stored on a plan (`createPlan`'s `input` argument);
the burnout scorer reads `plan.input.energyLevel` from it. -/
structure PlanInput where
  energyLevel : Option ℚ := none
  deriving Repr, DecidableEq

/-- A plan document in the `plans` collection. -/
structure Plan where
  userId : String
  title : String
  active : Bool
  createdAt : Nat
  input : Option PlanInput := none
  optimizedAt : Option Nat := none
  deriving Repr, DecidableEq

/-- A task document in the `plans/{planId}/tasks` subcollection. -/
structure Task where
  title : String
  subject : String := ""
  plannedMinutes : Int := 25
  done : Bool := false
  order : Int := 0
  priority : Option Int := none
  note : Option String := none
  optimizedAt : Option Nat := none
  deriving Repr, DecidableEq

/-! ## Burnout scorer -/

/-- The energy factor input of `getBurnoutScore`:
`Number(plan?.input?.energyLevel ?? 3)`. -/
def energyOf (plan : Option Plan) : ℚ :=
  match plan with
  | some p =>
    match p.input with
    | some inp =>
      match inp.energyLevel with
      | some e => e
      | none => 3
    | none => 3
  | none => 3

/-- The completion factor input of `getBurnoutScore`: the done/total task
ratio, `1` when the task list is empty. -/
def completionOf (tasks : List Task) : ℚ :=
  if tasks.length = 0 then 1
  else ((tasks.filter (fun t => t.done)).length : ℚ) / (tasks.length : ℚ)

/-- Model of `getBurnoutScore`, as a function of the values it reads (active
plan with its tasks, streak, today's total minutes): the sequential
`score += …` rule evaluation of the source, then the clamp and the status
label.  Returns `(score, status)`. -/
def getBurnoutScore (plan : Option Plan) (tasks : List Task) (streak : Nat)
    (totalMinutes : Int) : Int × String :=
  let energy := energyOf plan
  let completion := completionOf tasks
  let s1 : Int := if energy ≤ 2 then 25 else if energy = 3 then 10 else 0
  let s2 : Int := if completion < 2 / 5 then 25 else if completion < 7 / 10 then 10 else 0
  let s3 : Int := if streak = 0 then 20 else 0
  let s4 : Int := if totalMinutes > 180 then 20 else if totalMinutes > 120 then 10 else 0
  let score := clamp100 (s1 + s2 + s3 + s4)
  (score,
    if score > 60 then "Burnout Risk"
    else if score > 30 then "Fatigued"
    else "Healthy")

/-- Energy row of the spec's burnout rule table (stated from the spec's words,
for comparison with `getBurnoutScore`). -/
def energyPoints (e : ℚ) : Int := if e ≤ 2 then 25 else if e = 3 then 10 else 0

/-- Completion row of the spec's burnout rule table. -/
def completionPoints (c : ℚ) : Int :=
  if c < 2 / 5 then 25 else if c < 7 / 10 then 10 else 0

/-- Streak row of the spec's burnout rule table. -/
def streakPoints (k : Nat) : Int := if k = 0 then 20 else 0

/-- Today's-minutes row of the spec's burnout rule table. -/
def minutesPoints (m : Int) : Int :=
  if m > 180 then 20 else if m > 120 then 10 else 0

/-- Status labelling rule of the spec. -/
def burnoutStatusLabel (score : Int) : String :=
  if score > 60 then "Burnout Risk" else if score > 30 then "Fatigued" else "Healthy"

/-! ## Session manager -/

/-- The per-user document `users/{uid}` (the session pointer fields) together
with its `sessions` subcollection.  New sessions are prepended; `nextSid` is
the id allocator. -/
structure SessState where
  sessions : List (Nat × Session) := []
  nextSid : Nat := 0
  activeSessionId : Option Nat := none
  activeSessionStartedAtMs : Option Int := none
  activeSessionMode : Option String := none
  deriving Repr, DecidableEq

/-- The parameter object of `startSession`. -/
structure StartParams where
  planId : Option Nat := none
  taskId : Option Nat := none
  mode : String := "pomodoro"
  plannedMinutes : Option Int := none
  scaledMinutes : Option Int := none
  subject : Option String := none
  burnoutScoreAtStart : Option Int := none
  deriving Repr, DecidableEq

/-- `clearActiveSessionPointer`: merge-write all three pointer fields to
null. -/
def clearSessionPtr (st : SessState) : SessState :=
  { st with
    activeSessionId := none
    activeSessionStartedAtMs := none
    activeSessionMode := none }

/-- The payload inserted by `startSession` for a fresh running session. -/
def startPayload (p : StartParams) (nowDay : Int) : Session :=
  { planId := p.planId
    taskId := p.taskId
    mode := p.mode
    startedAtDay := some nowDay
    endedAt := none
    durationMinutes := 0
    status := "running"
    plannedMinutes := p.plannedMinutes
    scaledMinutes := p.scaledMinutes
    subject := p.subject
    burnoutScoreAtStart := p.burnoutScoreAtStart.map clamp100 }

/-- The non-reuse tail of `startSession`: insert a fresh `running` session,
then point the pointer at it (`setActiveSessionPointer`, whose `mode ||
"pomodoro"` fallback is reproduced). -/
def insertNewSession (st : SessState) (p : StartParams) (nowMs : Int) (nowDay : Int) :
    SessState × Nat × Bool :=
  let sid := st.nextSid
  ({ st with
      sessions := (sid, startPayload p nowDay) :: st.sessions
      nextSid := st.nextSid + 1
      activeSessionId := some sid
      activeSessionStartedAtMs := some nowMs
      activeSessionMode := some (if p.mode = "" then "pomodoro" else p.mode) },
    sid, false)

/-- Model of `startSession`: consult the pointer; if it names a session whose
stored status is still `"running"`, return that id with `reused = true` and
write nothing; otherwise clear the stale pointer (when one was set) and insert
a fresh session.  Returns `(state, id, reused)`. -/
def startSession (st : SessState) (p : StartParams) (nowMs : Int) (nowDay : Int) :
    SessState × Nat × Bool :=
  match st.activeSessionId with
  | some sid =>
    match st.sessions.lookup sid with
    | some s =>
      if s.status = "running" then (st, sid, true)
      else insertNewSession (clearSessionPtr st) p nowMs nowDay
    | none => insertNewSession (clearSessionPtr st) p nowMs nowDay
  | none => insertNewSession st p nowMs nowDay

/-- The update object `endSession` writes to the session document: terminal
fields, with the duration floored at 0 and the optional end score clamped. -/
def terminalFields (durationMinutes : Int) (status : String)
    (burnoutScoreAtEnd : Option Int) (now : Nat) (s : Session) : Session :=
  { s with
    endedAt := some now
    durationMinutes := max 0 durationMinutes
    status := status
    completed := status == "completed"
    burnoutScoreAtEnd :=
      match burnoutScoreAtEnd with
      | some b => some (clamp100 b)
      | none => s.burnoutScoreAtEnd }

/-- Model of `endSession(sessionId, {durationMinutes, status,
burnoutScoreAtEnd})`: `updateDoc` fails when the session document is absent;
otherwise set the terminal fields and clear the pointer. -/
def endSession (st : SessState) (sid : Nat) (durationMinutes : Int) (status : String)
    (burnoutScoreAtEnd : Option Int) (now : Nat) : Except Err SessState :=
  match st.sessions.lookup sid with
  | none => .error .storeNotFound
  | some _ =>
    .ok (clearSessionPtr
      { st with
        sessions := st.sessions.map (fun e =>
          if e.1 == sid then (e.1, terminalFields durationMinutes status burnoutScoreAtEnd now e.2)
          else e) })

/-- Model of `cancelSession`: `endSession` with duration 0 and status
`"cancelled"`. -/
def cancelSession (st : SessState) (sid : Nat) (now : Nat) : Except Err SessState :=
  endSession st sid 0 "cancelled" none now

/-! ## Plan manager -/

/-- The plan side of the store: the `plans` collection, the task
subcollections (keyed by `(planId, taskId)`), the per-user `activePlanId`
pointer field, and the document id allocator. -/
structure PlanState where
  plans : List (Nat × Plan) := []
  tasks : List (Nat × Nat × Task) := []
  activePlanPtr : List (String × Nat) := []
  nextId : Nat := 0
  deriving Repr, DecidableEq

/-- One entry of `createPlan`'s `tasks` array; optional fields model absent or
non-numeric values (`Number.isFinite` failing). -/
structure TaskInput where
  title : String := ""
  subject : Option String := none
  plannedMinutes : Option Int := none
  order : Option Int := none
  deriving Repr, DecidableEq

/-- The argument object of `createPlan`; `tasks = none` models a non-array
`tasks` value. -/
structure CreatePlanArgs where
  title : String := ""
  tasks : Option (List TaskInput) := some []
  input : Option PlanInput := none
  deriving Repr, DecidableEq

/-- `getDoc` on `plans/{pid}`. -/
def lookupPlan (st : PlanState) (pid : Nat) : Option Plan :=
  st.plans.lookup pid

/-- The `(taskId, task)` documents of one plan's `tasks` subcollection. -/
def tasksOf (st : PlanState) (pid : Nat) : List (Nat × Task) :=
  (st.tasks.filter (fun e => e.1 == pid)).map (fun e => (e.2.1, e.2.2))

/-- The query `where("userId","==",uid).where("active","==",true)` as a
Boolean document predicate. -/
def isActiveOf (uid : String) (p : Nat × Plan) : Bool :=
  p.2.userId == uid && p.2.active

/-- Document ids of the user's currently active plans (the `activeSnap`
snapshot read by `createPlan` and `setPlanActive`). -/
def activePlanIds (st : PlanState) (uid : String) : List Nat :=
  (st.plans.filter (isActiveOf uid)).map (fun p => p.1)

/-- Number of the user's plans with `active = true`. -/
def countActive (st : PlanState) (uid : String) : Nat :=
  (st.plans.filter (isActiveOf uid)).length

/-- The batched `batch.update(d.ref, { active: false })` calls over a
snapshot of document ids. -/
def deactivateIds (plans : List (Nat × Plan)) (ids : List Nat) : List (Nat × Plan) :=
  plans.map (fun p => if ids.contains p.1 then (p.1, { p.2 with active := false }) else p)

/-- `setActivePlanPointer`: merge-write `users/{uid}.activePlanId = pid`. -/
def setActivePlanPtr (st : PlanState) (uid : String) (pid : Nat) : PlanState :=
  { st with activePlanPtr := (uid, pid) :: st.activePlanPtr.filter (fun e => e.1 != uid) }

/-- One task document built by the `createPlan` task loop at array index `i`:
entries whose trimmed title is empty are skipped. -/
def buildTask (t : TaskInput) (i : Nat) : Option Task :=
  let taskTitle := jsTrim t.title
  if taskTitle = "" then none
  else
    some
      { title := taskTitle
        subject := jsTrim (t.subject.getD "")
        plannedMinutes := t.plannedMinutes.getD 25
        done := false
        order := t.order.getD (i : Int)
        priority := none
        note := none
        optimizedAt := none }

/-- The task documents `createPlan` stages into its batch, with the original
array index used as the default `order`. -/
def builtTasks (ts : List TaskInput) : List Task :=
  ts.enum.filterMap (fun p => buildTask p.2 p.1)

/-- The awaited `addDoc(collection(db, "plans"), …)` inside `createPlan`: a
separate write, performed before the batch commit, that inserts the new plan
document with `active: true`.  Returns the state after this write and the new
plan id. -/
def createPlanAddDoc (st : PlanState) (uid : String) (a : CreatePlanArgs) (now : Nat) :
    PlanState × Nat :=
  let pid := st.nextId
  ({ st with
      plans := st.plans ++
        [(pid,
          { userId := uid
            title := jsTrim a.title
            active := true
            createdAt := now
            input := a.input })]
      nextId := st.nextId + 1 },
    pid)

/-- The `batch.commit()` of `createPlan`: atomically deactivate the snapshot
of previously active plans and insert the new plan's task documents. -/
def createPlanCommit (st : PlanState) (snapshot : List Nat) (pid : Nat)
    (ts : List TaskInput) : PlanState :=
  let kept := builtTasks ts
  { st with
    plans := deactivateIds st.plans snapshot
    tasks := st.tasks ++ kept.enum.map (fun p => (pid, st.nextId + p.1, p.2))
    nextId := st.nextId + kept.length }

/-- Model of `createPlan({title, tasks, aiPlan, input})`: validate, snapshot
the active plans, insert the plan document (`addDoc`), commit the batch, set
the pointer.  The three writes are separate awaited store operations in the
source; this function is their sequential composition run to completion. -/
def createPlan (st : PlanState) (uid : String) (a : CreatePlanArgs) (now : Nat) :
    Except Err (PlanState × Nat) :=
  if jsTrim a.title = "" then .error (.app "Title is required")
  else
    match a.tasks with
    | none => .error (.app "Tasks must be an array")
    | some ts =>
      let snapshot := activePlanIds st uid
      let r := createPlanAddDoc st uid a now
      let st2 := createPlanCommit r.1 snapshot r.2 ts
      .ok (setActivePlanPtr st2 uid r.2, r.2)

/-- Model of `setPlanActive(planId)`: existence and ownership checks, then one
batch that deactivates the snapshot of active plans and activates the target
(the later write to the target wins inside the batch), then the pointer
write. -/
def setPlanActive (st : PlanState) (uid : String) (pid : Nat) : Except Err PlanState :=
  match lookupPlan st pid with
  | none => .error (.app "Plan not found")
  | some p =>
    if p.userId ≠ uid then .error (.app "Forbidden")
    else
      let snapshot := activePlanIds st uid
      let st1 :=
        { st with
          plans := (deactivateIds st.plans snapshot).map (fun q =>
            if q.1 == pid then (q.1, { q.2 with active := true }) else q) }
      .ok (setActivePlanPtr st1 uid pid)

/-- One completed plan-manager call of the C2 sequence. -/
inductive PlanOp where
  | create (a : CreatePlanArgs) (now : Nat)
  | activate (pid : Nat)
  deriving Repr, DecidableEq

/-- Run one call; a call that throws writes nothing (both operations validate
before their first write), so it leaves the state unchanged. -/
def applyPlanOp (uid : String) (st : PlanState) : PlanOp → PlanState
  | .create a now =>
    match createPlan st uid a now with
    | .ok r => r.1
    | .error _ => st
  | .activate pid =>
    match setPlanActive st uid pid with
    | .ok st1 => st1
    | .error _ => st

/-- Run a sequence of plan-manager calls one after another. -/
def applyPlanOps (uid : String) (st : PlanState) (ops : List PlanOp) : PlanState :=
  ops.foldl (applyPlanOp uid) st

/-- Well-formedness of the id allocation: distinct plan document ids, all
below the allocator. -/
def wfPlanState (st : PlanState) : Prop :=
  (st.plans.map (fun p => p.1)).Nodup ∧ ∀ p ∈ st.plans, p.1 < st.nextId

instance (st : PlanState) : Decidable (wfPlanState st) := by
  unfold wfPlanState
  infer_instance

/-! ## getPlanTasks -/

/-- The sort key of `tasks.sort((a, b) => (Number(a.order) || 0) -
(Number(b.order) || 0))`. -/
def orderKey (t : Nat × Task) : Int := t.2.order

/-- Ordered insertion by `orderKey` (the effect of the ascending comparator
sort). -/
def insertByOrder (a : Nat × Task) : List (Nat × Task) → List (Nat × Task)
  | [] => [a]
  | b :: l => if orderKey a ≤ orderKey b then a :: b :: l else b :: insertByOrder a l

/-- Sort a task list ascending by `orderKey`. -/
def sortTasksByOrder : List (Nat × Task) → List (Nat × Task)
  | [] => []
  | a :: l => insertByOrder a (sortTasksByOrder l)

/-- Model of `getPlanTasks(planId)`: existence check, then ownership check
(both before any task document is read), then the task fetch (`limit(100)`)
sorted client-side by `order` ascending. -/
def getPlanTasks (st : PlanState) (uid : String) (pid : Nat) :
    Except Err (List (Nat × Task)) :=
  match lookupPlan st pid with
  | none => .error (.app "Plan not found")
  | some p =>
    if p.userId ≠ uid then .error (.app "Forbidden")
    else .ok (sortTasksByOrder ((tasksOf st pid).take 100))

/-! ## optimizeTasksInPlan -/

/-- One entry of the `updates` array of `optimizeTasksInPlan`; `taskId = none`
models an entry with a missing/falsy task id. -/
structure TaskUpdate where
  taskId : Option Nat := none
  plannedMinutes : Option Int := none
  priority : Option Int := none
  order : Option Int := none
  note : Option String := none
  deriving Repr, DecidableEq

/-- The field set one batched update writes to a task document, with the
source's `Number(…) || default` coercions. -/
def applyTaskUpdate (u : TaskUpdate) (now : Nat) (t : Task) : Task :=
  { t with
    plannedMinutes := jsOr u.plannedMinutes 25
    priority := some (jsOr u.priority 3)
    order := jsOr u.order 0
    note := some (u.note.getD "")
    optimizedAt := some now }

/-- The writes staged by the `updates.forEach` loop, applied in batch order;
entries without a task id stage nothing. -/
def applyBatchUpdates (tasks : List (Nat × Nat × Task)) (pid : Nat)
    (us : List TaskUpdate) (now : Nat) : List (Nat × Nat × Task) :=
  us.foldl
    (fun acc u =>
      match u.taskId with
      | none => acc
      | some tid =>
        acc.map (fun e =>
          if e.1 == pid && e.2.1 == tid then (e.1, e.2.1, applyTaskUpdate u now e.2.2)
          else e))
    tasks

/-- Task ids referenced by the staged batch updates. -/
def targetedIds (us : List TaskUpdate) : List Nat :=
  us.filterMap (fun u => u.taskId)

/-- Whether a task document exists under `plans/{pid}/tasks/{tid}`. -/
def taskExists (st : PlanState) (pid : Nat) (tid : Nat) : Bool :=
  st.tasks.any (fun e => e.1 == pid && e.2.1 == tid)

/-- Model of `optimizeTasksInPlan(planId, updates)`: existence and ownership
checks, rejection of a non-array or empty `updates`, then one batch of task
updates.  A batched `update` aimed at a task document that does not exist
makes the whole commit fail with nothing applied (the store's update
contract); on success the plan's `optimizedAt` is marked best-effort. -/
def optimizeTasksInPlan (st : PlanState) (uid : String) (pid : Nat)
    (updates : Option (List TaskUpdate)) (now : Nat) : Except Err PlanState :=
  match lookupPlan st pid with
  | none => .error (.app "Plan not found")
  | some p =>
    if p.userId ≠ uid then .error (.app "Forbidden")
    else
      match updates with
      | none => .error (.app "No updates provided")
      | some us =>
        if us.isEmpty then .error (.app "No updates provided")
        else if (targetedIds us).all (fun tid => taskExists st pid tid) then
          let st1 := { st with tasks := applyBatchUpdates st.tasks pid us now }
          .ok
            { st1 with
              plans := st1.plans.map (fun q =>
                if q.1 == pid then (q.1, { q.2 with optimizedAt := some now }) else q) }
        else .error .storeNotFound

/-! ## Concrete fixtures -/

/-- A store holding one active plan (id 0) of user `"u"` with one task, used
to exhibit the intermediate state of `createPlan`. -/
def c1State : PlanState :=
  { plans := [(0, { userId := "u", title := "Old", active := true, createdAt := 0 })]
    tasks := [(0, 1, { title := "Old task" })]
    activePlanPtr := [("u", 0)]
    nextId := 2 }

/-- A `createPlan` argument with a non-empty title and one valid task. -/
def c1Args : CreatePlanArgs :=
  { title := "New plan", tasks := some [{ title := "Read chapter" }] }

/-- A store with one plan (id 0, owner `"u"`) holding exactly one task
document (id 1). -/
def c7State : PlanState :=
  { plans := [(0, { userId := "u", title := "P", active := true, createdAt := 0 })]
    tasks := [(0, 1, { title := "t" })]
    activePlanPtr := []
    nextId := 2 }

/-- An update batch with one valid task reference (id 1) and one reference to
a task document that does not exist (id 99). -/
def c7Updates : List TaskUpdate :=
  [{ taskId := some 1, plannedMinutes := some 30 }, { taskId := some 99 }]

/-! ## C1 -/

/-- C1: the claim says `createPlan` performs its writes atomically in one
commit, so that no partial execution leaves an active plan with its tasks
missing.  The code violates this: the new plan document is inserted by an
awaited `addDoc` (with `active: true`) before `batch.commit()`, and the
pointer is written in a third operation.  This theorem evaluates the state
after the `addDoc` write at the failing input: the new plan is stored active
with none of its task documents (while the full run would have inserted one),
and two plans of the user are active at once. -/
theorem createPlan_addDoc_observable_partial_state :
    lookupPlan (createPlanAddDoc c1State "u" c1Args 7).1 (createPlanAddDoc c1State "u" c1Args 7).2 =
      some { userId := "u", title := "New plan", active := true, createdAt := 7 } ∧
    tasksOf (createPlanAddDoc c1State "u" c1Args 7).1 (createPlanAddDoc c1State "u" c1Args 7).2 = [] ∧
    (createPlan c1State "u" c1Args 7).toOption.map (fun r => (tasksOf r.1 r.2).length) = some 1 ∧
    countActive (createPlanAddDoc c1State "u" c1Args 7).1 "u" = 2 := by
  decide

/-! ## C4 -/

/-- Fixture for the first spec example of `getBurnoutScore`: energy level 1
and one of five tasks done (completion 0.2). -/
def c4PlanLowEnergy : Plan :=
  { userId := "u", title := "p", active := true, createdAt := 0
    input := some { energyLevel := some 1 } }

/-- Five tasks, one done: completion ratio `0.2`. -/
def c4TasksFifth : List Task :=
  [{ title := "a", done := true }, { title := "b" }, { title := "c" },
   { title := "d" }, { title := "e" }]

/-- Fixture for the second spec example: energy level 5 and all tasks done
(completion 1.0). -/
def c4PlanHighEnergy : Plan :=
  { userId := "u", title := "p", active := true, createdAt := 0
    input := some { energyLevel := some 5 } }

/-- One task, done: completion ratio `1.0`. -/
def c4TasksDone : List Task := [{ title := "a", done := true }]

/-- C4: `getBurnoutScore` evaluates the four factors independently against
the rule table, sums the awarded points, clamps to `[0,100]`, and labels the
score with `>60 → "Burnout Risk"`, `>30 → "Fatigued"`, else `"Healthy"`; on
inputs `{energyLevel:1, completion:0.2, streak:0, totalMinutes:200}` it yields
`(90, "Burnout Risk")` and on `{energyLevel:5, completion:1.0, streak:5,
totalMinutes:30}` it yields `(0, "Healthy")`. -/
theorem getBurnoutScore_rule_table :
    (∀ (plan : Option Plan) (tasks : List Task) (streak : Nat) (totalMinutes : Int),
      getBurnoutScore plan tasks streak totalMinutes =
        (clamp100 (energyPoints (energyOf plan) + completionPoints (completionOf tasks) +
            streakPoints streak + minutesPoints totalMinutes),
          burnoutStatusLabel
            (clamp100 (energyPoints (energyOf plan) + completionPoints (completionOf tasks) +
              streakPoints streak + minutesPoints totalMinutes)))) ∧
    getBurnoutScore (some c4PlanLowEnergy) c4TasksFifth 0 200 = (90, "Burnout Risk") ∧
    getBurnoutScore (some c4PlanHighEnergy) c4TasksDone 5 30 = (0, "Healthy") := by
  refine ⟨fun plan tasks streak totalMinutes => rfl, ?_, ?_⟩ <;>
    norm_num [getBurnoutScore, energyOf, completionOf, clamp100, c4PlanLowEnergy,
      c4TasksFifth, c4PlanHighEnergy, c4TasksDone]

/-! ## C5 -/

/-- C5: when the user's session pointer names a session whose stored status is
still `"running"`, `startSession` returns that session id with `reused = true`
and performs no write at all (the state is returned unchanged, so no session
document is inserted); hence a second `startSession` before the first ends is
idempotent on the session set. -/
theorem startSession_reuses_running (st : SessState) (p : StartParams)
    (nowMs nowDay : Int) (sid : Nat) (s : Session)
    (hptr : st.activeSessionId = some sid)
    (hlook : st.sessions.lookup sid = some s)
    (hrun : s.status = "running") :
    startSession st p nowMs nowDay = (st, sid, true) := by
  simp [startSession, hptr, hlook, hrun]

/-- A per-user state whose pointer names session 0, stored as `"running"`. -/
def c5State : SessState :=
  { sessions := [(0, { status := "running" })]
    nextSid := 1
    activeSessionId := some 0
    activeSessionStartedAtMs := some 5
    activeSessionMode := some "pomodoro" }

/-- Witness for C5 at a concrete state: the second start reuses session 0. -/
theorem startSession_reuses_running_witness :
    startSession c5State { mode := "short" } 99 3 = (c5State, 0, true) :=
  startSession_reuses_running c5State { mode := "short" } 99 3 0
    ({ status := "running" } : Session) (by rfl) (by rfl) (by rfl)

/-! ## C10 -/

/-- C10: `optimizeTasksInPlan` called by the plan's owner with an empty array
or a non-array `updates` value fails with the validation error `"No updates
provided"`; the error is returned before any batch is staged, so nothing is
written (the result carries no new state). -/
theorem optimizeTasksInPlan_rejects_empty (st : PlanState) (uid : String)
    (pid : Nat) (p : Plan) (now : Nat)
    (hlook : lookupPlan st pid = some p) (hown : p.userId = uid) :
    optimizeTasksInPlan st uid pid none now = .error (.app "No updates provided") ∧
    optimizeTasksInPlan st uid pid (some []) now = .error (.app "No updates provided") := by
  constructor <;> simp [optimizeTasksInPlan, hlook, hown]

/-- Witness for C10 at the concrete owner-held plan of `c7State`. -/
theorem optimizeTasksInPlan_rejects_empty_witness :
    optimizeTasksInPlan c7State "u" 0 none 5 = .error (.app "No updates provided") ∧
    optimizeTasksInPlan c7State "u" 0 (some []) 5 = .error (.app "No updates provided") :=
  optimizeTasksInPlan_rejects_empty c7State "u" 0
    { userId := "u", title := "P", active := true, createdAt := 0 } 5 (by rfl) (by rfl)

/-! ## C9 -/

/-- The streak scan never exceeds its iteration budget. -/
theorem streakScan_le_fuel (ds : List Int) : ∀ (n : Nat) (d : Int), streakScan ds n d ≤ n := by
  intro n
  induction n with
  | zero => intro d; simp [streakScan]
  | succ m ih =>
    intro d
    simp only [streakScan]
    split
    · exact Nat.succ_le_succ (ih (d - 1))
    · exact Nat.zero_le _

/-- When every day in the set is at least `L`, the scan from `d` counts at
most the days of `[L, d]`. -/
theorem streakScan_le_window (ds : List Int) (L : Int) (hds : ∀ x ∈ ds, L ≤ x) :
    ∀ (n : Nat) (d : Int), (streakScan ds n d : Int) ≤ max 0 (d + 1 - L) := by
  intro n
  induction n with
  | zero => intro d; simp [streakScan]
  | succ m ih =>
    intro d
    simp only [streakScan]
    split
    · rename_i hcon
      have hdL : L ≤ d := by
        apply hds
        exact (List.elem_iff).mp hcon
      have h1 : (streakScan ds m (d - 1) : Int) ≤ max 0 (d - 1 + 1 - L) := ih (d - 1)
      have h2 : max 0 (d - 1 + 1 - L) = d - 1 + 1 - L := max_eq_right (by omega)
      have h3 : max 0 (d + 1 - L) = d + 1 - L := max_eq_right (by omega)
      push_cast
      omega
    · simp

/-- Every day key of the window-filtered session list is at least the window
start. -/
theorem dayKeys_lower_bound (sessions : List Session) (L : Int) :
    ∀ x ∈ dayKeysOf (sessions.filter (inDayRange L)), L ≤ x := by
  intro x hx
  rcases List.mem_filterMap.mp hx with ⟨s, hs, hfs⟩
  rcases List.mem_filter.mp hs with ⟨-, hrange⟩
  by_cases hq : qualifies s
  · rw [if_pos hq] at hfs
    unfold inDayRange at hrange
    rw [hfs] at hrange
    simpa using hrange
  · rw [if_neg hq] at hfs
    exact absurd hfs (by simp)

/-- C9: for every session log and every `lookbackDays`, the streak returned by
`getStreak` is at most `min (lookbackDays + 1) 365`: sessions started before
the lookback window never extend the streak (the range query excludes them
from the day set), and the backward scan is hard-capped at 365 iterations. -/
theorem getStreak_bounded (sessions : List Session) (lookbackDays : Nat) (today : Int) :
    getStreak sessions lookbackDays today ≤ min (lookbackDays + 1) 365 := by
  have hwin := streakScan_le_window
    (dayKeysOf (sessions.filter (inDayRange (today - lookbackDays))))
    (today - lookbackDays)
    (dayKeys_lower_bound sessions (today - lookbackDays)) 365 today
  have hmax : max 0 (today + 1 - (today - (lookbackDays : Int))) = (lookbackDays : Int) + 1 := by
    rw [max_eq_right (by omega : (0 : Int) ≤ today + 1 - (today - (lookbackDays : Int)))]
    omega
  rw [hmax] at hwin
  have hfuel := streakScan_le_fuel
    (dayKeysOf (sessions.filter (inDayRange (today - lookbackDays)))) 365 today
  have heq : getStreak sessions lookbackDays today =
      streakScan (dayKeysOf (sessions.filter (inDayRange (today - lookbackDays)))) 365 today := rfl
  rw [heq]
  refine le_min ?_ hfuel
  omega

/-! ## C8 -/

/-- Every element of an ordered insertion is the inserted element or one of
the original list. -/
theorem mem_insertByOrder {a x : Nat × Task} :
    ∀ {l : List (Nat × Task)}, x ∈ insertByOrder a l → x = a ∨ x ∈ l := by
  intro l
  induction l with
  | nil => simp [insertByOrder]
  | cons b t ih =>
    simp only [insertByOrder]
    split
    · intro h
      rcases List.mem_cons.mp h with h | h
      · exact Or.inl h
      · exact Or.inr h
    · intro h
      rcases List.mem_cons.mp h with h | h
      · exact Or.inr (by simp [h])
      · rcases ih h with h | h
        · exact Or.inl h
        · exact Or.inr (List.mem_cons_of_mem b h)

/-- Ordered insertion preserves sortedness by the order key. -/
theorem pairwise_insertByOrder {a : Nat × Task} :
    ∀ {l : List (Nat × Task)}, l.Pairwise (fun x y => orderKey x ≤ orderKey y) →
      (insertByOrder a l).Pairwise (fun x y => orderKey x ≤ orderKey y) := by
  intro l
  induction l with
  | nil => intro _; simp [insertByOrder]
  | cons b t ih =>
    intro hp
    rcases List.pairwise_cons.mp hp with ⟨hb, ht⟩
    simp only [insertByOrder]
    split
    · rename_i hab
      refine List.pairwise_cons.mpr ⟨?_, hp⟩
      intro y hy
      rcases List.mem_cons.mp hy with h | h
      · rw [h]; exact hab
      · exact le_trans hab (hb y h)
    · rename_i hab
      refine List.pairwise_cons.mpr ⟨?_, ih ht⟩
      intro y hy
      rcases mem_insertByOrder hy with h | h
      · rw [h]; omega
      · exact hb y h

/-- The result of `sortTasksByOrder` is sorted ascending by the order key. -/
theorem sortTasksByOrder_pairwise :
    ∀ (l : List (Nat × Task)),
      (sortTasksByOrder l).Pairwise (fun x y => orderKey x ≤ orderKey y) := by
  intro l
  induction l with
  | nil => simp [sortTasksByOrder]
  | cons a t ih => exact pairwise_insertByOrder ih

/-- C8: when the plan exists but belongs to a different user, `getPlanTasks`
fails with the Forbidden error and returns no task data (the ownership check
runs before any task document is read, and the error carries none); when the
caller owns the plan, the returned tasks are sorted by `order` ascending. -/
theorem getPlanTasks_ownership_sorted (st : PlanState) (uid : String) (pid : Nat)
    (p : Plan) (hlook : lookupPlan st pid = some p) :
    (p.userId ≠ uid → getPlanTasks st uid pid = .error (.app "Forbidden")) ∧
    (p.userId = uid → ∃ ts, getPlanTasks st uid pid = .ok ts ∧
      ts.Pairwise (fun x y => orderKey x ≤ orderKey y)) := by
  constructor
  · intro hne
    simp [getPlanTasks, hlook, hne]
  · intro hown
    refine ⟨sortTasksByOrder ((tasksOf st pid).take 100), ?_, sortTasksByOrder_pairwise _⟩
    simp [getPlanTasks, hlook, hown]

/-- A store with one plan (id 0, owner `"u"`) and two tasks stored out of
order. -/
def c8State : PlanState :=
  { plans := [(0, { userId := "u", title := "P", active := true, createdAt := 0 })]
    tasks := [(0, 1, { title := "a", order := 2 }), (0, 2, { title := "b", order := 1 })]
    activePlanPtr := []
    nextId := 3 }

/-- Witness for C8: a non-owner gets Forbidden; the owner gets a sorted task
list. -/
theorem getPlanTasks_ownership_sorted_witness :
    getPlanTasks c8State "v" 0 = .error (.app "Forbidden") ∧
    (∃ ts, getPlanTasks c8State "u" 0 = .ok ts ∧
      ts.Pairwise (fun x y => orderKey x ≤ orderKey y)) :=
  ⟨(getPlanTasks_ownership_sorted c8State "v" 0
      { userId := "u", title := "P", active := true, createdAt := 0 } (by rfl)).1
      (by decide),
   (getPlanTasks_ownership_sorted c8State "u" 0
      { userId := "u", title := "P", active := true, createdAt := 0 } (by rfl)).2
      (by rfl)⟩

/-! ## C3 -/

/-- Folding a step function over a filtered list ignores a middle element that
the step function skips. -/
theorem filterFold_skip {β : Type} (p : Session → Bool) (g : β → Session → β)
    (init : β) {s : Session} (hg : ∀ b, g b s = b) (l1 l2 : List Session) :
    ((l1 ++ s :: l2).filter p).foldl g init = ((l1 ++ l2).filter p).foldl g init := by
  by_cases h : p s
  · simp [List.filter_append, List.filter_cons, h, List.foldl_append, hg]
  · simp [List.filter_append, List.filter_cons, h]

/-- Folding a step function over a list ignores a middle element that the
step function skips. -/
theorem foldl_middle_skip {β : Type} (g : β → Session → β) (init : β)
    {s : Session} (hg : ∀ b, g b s = b) (l1 l2 : List Session) :
    (l1 ++ s :: l2).foldl g init = (l1 ++ l2).foldl g init := by
  simp [List.foldl_append, hg]

/-- The qualifying day keys of a filtered list ignore a middle non-qualifying
session. -/
theorem dayKeysOf_filter_skip (p : Session → Bool) {s : Session}
    (hs : qualifies s = false) (l1 l2 : List Session) :
    dayKeysOf ((l1 ++ s :: l2).filter p) = dayKeysOf ((l1 ++ l2).filter p) := by
  by_cases h : p s
  · simp [dayKeysOf, List.filter_append, List.filter_cons, h, List.filterMap_append,
      List.filterMap_cons, hs]
  · simp [List.filter_append, List.filter_cons, h]

/-- C3: every analytics aggregate (`getTodaySessionStats`, `getStreak`,
`getWeeklyStats`, `groupFocusMinutesByDay`, `getAdvancedInsights`) counts only
sessions with `status == "completed"` and `mode == "pomodoro"`: a record
failing the filter contributes nothing — deleting it from the log, at any
position, leaves every total, count, day set, percentage, average and subject
map unchanged. -/
theorem analytics_skip_nonqualifying (l1 l2 : List Session) (s : Session)
    (today : Int) (days lookbackDays : Nat)
    (hs : qualifies s = false) :
    getTodaySessionStats (l1 ++ s :: l2) today = getTodaySessionStats (l1 ++ l2) today ∧
    getStreak (l1 ++ s :: l2) lookbackDays today = getStreak (l1 ++ l2) lookbackDays today ∧
    getWeeklyStats (l1 ++ s :: l2) today = getWeeklyStats (l1 ++ l2) today ∧
    groupFocusMinutesByDay (l1 ++ s :: l2) days today =
      groupFocusMinutesByDay (l1 ++ l2) days today ∧
    getAdvancedInsights (l1 ++ s :: l2) days today =
      getAdvancedInsights (l1 ++ l2) days today := by
  refine ⟨?_, ?_, ?_, ?_, ?_⟩
  · exact filterFold_skip _ _ _ (fun b => by simp [hs]) l1 l2
  · show streakScan (dayKeysOf ((l1 ++ s :: l2).filter _)) 365 today =
      streakScan (dayKeysOf ((l1 ++ l2).filter _)) 365 today
    rw [dayKeysOf_filter_skip _ hs]
  · exact filterFold_skip _ _ _ (fun b => by simp [hs]) l1 l2
  · show (windowKeys today days, (l1 ++ s :: l2).foldl _ _) =
      (windowKeys today days, (l1 ++ l2).foldl _ _)
    rw [foldl_middle_skip _ _ (fun b => by simp [hs]) l1 l2]
  · have hfold := filterFold_skip (s := s) (inDayRange (today - ((days : Int) - 1)))
      insightsStep ({} : InsAcc) (fun b => by simp [insightsStep, hs]) l1 l2
    simp only [getAdvancedInsights, hfold]

/-- Witness for C3: deleting a cancelled short-break record changes no
aggregate. -/
theorem analytics_skip_nonqualifying_witness :
    qualifies { status := "cancelled", mode := "short", startedAtDay := some 10 } = false ∧
    getTodaySessionStats
        [{ status := "completed", mode := "pomodoro", startedAtDay := some 10,
           durationMinutes := 25 },
         { status := "cancelled", mode := "short", startedAtDay := some 10 }] 10 =
      getTodaySessionStats
        [{ status := "completed", mode := "pomodoro", startedAtDay := some 10,
           durationMinutes := 25 }] 10 :=
  ⟨by decide,
   (analytics_skip_nonqualifying
      [{ status := "completed", mode := "pomodoro", startedAtDay := some 10,
         durationMinutes := 25 }] []
      { status := "cancelled", mode := "short", startedAtDay := some 10 }
      10 7 45 (by decide)).1⟩

/-! ## C6 -/

/-- Looking up a key after a keyed in-place update returns the updated
value. -/
theorem lookup_map_update {sid : Nat} (f : Session → Session) :
    ∀ {l : List (Nat × Session)} {s : Session}, l.lookup sid = some s →
      (l.map (fun e => if e.1 == sid then (e.1, f e.2) else e)).lookup sid = some (f s) := by
  intro l
  induction l with
  | nil => intro s h; simp [List.lookup] at h
  | cons a t ih =>
    intro s h
    by_cases ha : a.1 = sid
    · have hbeq : (sid == a.1) = true := by simp [ha]
      have hbeq2 : (a.1 == sid) = true := by simp [ha]
      rw [show a = (a.1, a.2) from rfl, List.lookup_cons] at h
      simp only [hbeq] at h
      cases h
      simp only [List.map_cons, hbeq2, if_pos]
      rw [List.lookup_cons]
      simp [hbeq]
    · have hbeq : (sid == a.1) = false := by simp [Ne.symm ha]
      have hbeq2 : (a.1 == sid) = false := by simp [ha]
      rw [show a = (a.1, a.2) from rfl, List.lookup_cons] at h
      simp only [hbeq] at h
      simp only [List.map_cons, hbeq2, Bool.false_eq_true, if_false]
      rw [List.lookup_cons]
      simp only [hbeq]
      exact ih h

/-- The session id returned by `startSession` always names a stored session
document in the returned state. -/
theorem startSession_lookup_some (st : SessState) (p : StartParams)
    (nowMs nowDay : Int) :
    ∃ s1, (startSession st p nowMs nowDay).1.sessions.lookup
      (startSession st p nowMs nowDay).2.1 = some s1 := by
  unfold startSession
  cases hptr : st.activeSessionId with
  | none =>
    refine ⟨startPayload p nowDay, ?_⟩
    simp [insertNewSession, List.lookup_cons]
  | some sid =>
    cases hlk : st.sessions.lookup sid with
    | none =>
      refine ⟨startPayload p nowDay, ?_⟩
      simp [hlk, insertNewSession, clearSessionPtr, List.lookup_cons]
    | some s =>
      by_cases hr : s.status = "running"
      · exact ⟨s, by simp [hr, hlk]⟩
      · refine ⟨startPayload p nowDay, ?_⟩
        simp [hlk, hr, insertNewSession, clearSessionPtr, List.lookup_cons]

/-- C6: after `startSession` followed by `endSession` on the id it returned,
the session is terminal: `endedAt` is set, `durationMinutes` equals the given
value floored at 0, `status` equals the given status, `completed` holds
exactly when the status is `"completed"`, and all three of the user's session
pointer fields are cleared. -/
theorem startSession_endSession_terminal (st : SessState) (p : StartParams)
    (nowMs nowDay : Int) (d : Int) (status : String) (b : Option Int) (now : Nat) :
    ∃ st2 s2,
      endSession (startSession st p nowMs nowDay).1
          (startSession st p nowMs nowDay).2.1 d status b now = .ok st2 ∧
      st2.sessions.lookup (startSession st p nowMs nowDay).2.1 = some s2 ∧
      s2.endedAt = some now ∧
      s2.durationMinutes = max 0 d ∧
      s2.status = status ∧
      (s2.completed = true ↔ status = "completed") ∧
      st2.activeSessionId = none ∧
      st2.activeSessionStartedAtMs = none ∧
      st2.activeSessionMode = none := by
  obtain ⟨s1, h1⟩ := startSession_lookup_some st p nowMs nowDay
  refine
    ⟨clearSessionPtr
        { (startSession st p nowMs nowDay).1 with
          sessions := (startSession st p nowMs nowDay).1.sessions.map (fun e =>
            if e.1 == (startSession st p nowMs nowDay).2.1 then
              (e.1, terminalFields d status b now e.2)
            else e) },
      terminalFields d status b now s1, ?_, ?_, rfl, rfl, rfl, ?_, rfl, rfl, rfl⟩
  · simp only [endSession, h1]
  · exact lookup_map_update (terminalFields d status b now) h1
  · simp [terminalFields]

/-! ## C7 -/

/-- C7 counterexample: with one update referencing the existing task 1 and one
referencing the nonexistent task 99, `optimizeTasksInPlan` does NOT apply the
valid update — the whole batch commit fails (a batched `update` requires its
target document to exist), so the operation errors, contrary to the claim that
it "applies only the valid update and does not fail". -/
theorem optimizeTasksInPlan_counterexample :
    taskExists c7State 0 1 = true ∧
    taskExists c7State 0 99 = false ∧
    optimizeTasksInPlan c7State "u" 0 (some c7Updates) 5 = .error .storeNotFound := by
  refine ⟨by decide, by decide, ?_⟩
  rfl

/-- Removing an update entry whose task id is absent does not change the
staged batch targets. -/
theorem targetedIds_middle_none {u : TaskUpdate} (hu : u.taskId = none)
    (l1 l2 : List TaskUpdate) :
    targetedIds (l1 ++ u :: l2) = targetedIds (l1 ++ l2) := by
  simp [targetedIds, List.filterMap_append, List.filterMap_cons, hu]

/-- Removing an update entry whose task id is absent does not change the
batch's writes. -/
theorem applyBatchUpdates_middle_none {u : TaskUpdate} (hu : u.taskId = none)
    (tasks : List (Nat × Nat × Task)) (pid : Nat) (l1 l2 : List TaskUpdate) (now : Nat) :
    applyBatchUpdates tasks pid (l1 ++ u :: l2) now = applyBatchUpdates tasks pid (l1 ++ l2) now := by
  simp only [applyBatchUpdates, List.foldl_append, List.foldl_cons, hu]

/-- C7 (amended): update entries missing a task id are skipped rather than
causing failure — removing such an entry (keeping the batch non-empty) leaves
the result of `optimizeTasksInPlan` unchanged; but an update referencing a
nonexistent task id does NOT leave only the valid updates applied: the whole
batch commit fails with a store error and no update is applied (the error
carries no new state). -/
theorem optimizeTasksInPlan_batch_semantics :
    (∀ (st : PlanState) (uid : String) (pid : Nat) (l1 l2 : List TaskUpdate)
        (u : TaskUpdate) (now : Nat),
      u.taskId = none → l1 ++ l2 ≠ [] →
      optimizeTasksInPlan st uid pid (some (l1 ++ u :: l2)) now =
        optimizeTasksInPlan st uid pid (some (l1 ++ l2)) now) ∧
    (∀ (st : PlanState) (uid : String) (pid : Nat) (p : Plan) (us : List TaskUpdate)
        (tid : Nat) (now : Nat),
      lookupPlan st pid = some p → p.userId = uid →
      tid ∈ targetedIds us → taskExists st pid tid = false →
      optimizeTasksInPlan st uid pid (some us) now = .error .storeNotFound) := by
  constructor
  · intro st uid pid l1 l2 u now hu hne
    unfold optimizeTasksInPlan
    cases hlk : lookupPlan st pid with
    | none => rfl
    | some p =>
      by_cases hown : p.userId = uid
      · have hne1 : ((l1 ++ u :: l2).isEmpty) = false := by
          simp [List.isEmpty_iff]
        have hne2 : ((l1 ++ l2).isEmpty) = false := by
          simp [List.isEmpty_iff, hne]
        simp only [hown, hne1, hne2, targetedIds_middle_none hu,
          applyBatchUpdates_middle_none hu, ne_eq, not_true_eq_false, if_false,
          Bool.false_eq_true]
      · simp [hown]
  · intro st uid pid p us tid now hlk hown htid hmiss
    have hall : ((targetedIds us).all (fun t => taskExists st pid t)) = false := by
      rcases Bool.eq_false_or_eq_true ((targetedIds us).all (fun t => taskExists st pid t)) with
        h | h
      · exact absurd ((List.all_eq_true.mp h) tid htid) (by simp [hmiss])
      · exact h
    have hne : us.isEmpty = false := by
      cases us with
      | nil => simp [targetedIds] at htid
      | cons a t => rfl
    simp [optimizeTasksInPlan, hlk, hown, hne, hall]

/-- Witness for C7 (amended): at the concrete plan of `c7State`, dropping an
id-less entry changes nothing, and a batch naming the nonexistent task 99
fails whole. -/
theorem optimizeTasksInPlan_batch_semantics_witness :
    optimizeTasksInPlan c7State "u" 0
        (some [{ taskId := some 1, plannedMinutes := some 30 }, { taskId := none }]) 5 =
      optimizeTasksInPlan c7State "u" 0
        (some [{ taskId := some 1, plannedMinutes := some 30 }]) 5 ∧
    optimizeTasksInPlan c7State "u" 0 (some [{ taskId := some 99 }]) 5 =
      .error .storeNotFound :=
  ⟨optimizeTasksInPlan_batch_semantics.1 c7State "u" 0
      [{ taskId := some 1, plannedMinutes := some 30 }] [] { taskId := none } 5
      (by rfl) (by decide),
   optimizeTasksInPlan_batch_semantics.2 c7State "u" 0
      { userId := "u", title := "P", active := true, createdAt := 0 }
      [{ taskId := some 99 }] 99 5 (by rfl) (by rfl) (by decide) (by decide)⟩

/-! ## C2 -/

/-- A successful keyed lookup means the key occurs in the list. -/
theorem lookup_mem_fst {β : Type} {pid : Nat} :
    ∀ {l : List (Nat × β)} {p : β}, l.lookup pid = some p →
      pid ∈ l.map (fun e => e.1) := by
  intro l
  induction l with
  | nil => intro p h; simp [List.lookup] at h
  | cons a t ih =>
    intro p h
    rw [show a = (a.1, a.2) from rfl, List.lookup_cons] at h
    by_cases hb : pid = a.1
    · simp [hb]
    · have hb2 : (pid == a.1) = false := by simp [hb]
      rw [hb2] at h
      simp only [List.map_cons, List.mem_cons]
      exact Or.inr (ih h)

/-- Under distinct keys, every list member carrying the looked-up key holds
the looked-up value. -/
theorem lookup_coherent {β : Type} {pid : Nat} :
    ∀ {l : List (Nat × β)} {p : β}, (l.map (fun e => e.1)).Nodup →
      l.lookup pid = some p → ∀ {x : Nat × β}, x ∈ l → x.1 = pid → x.2 = p := by
  intro l
  induction l with
  | nil => intro p _ h; simp [List.lookup] at h
  | cons a t ih =>
    intro p hnd h x hx hfst
    rw [List.map_cons, List.nodup_cons] at hnd
    rw [show a = (a.1, a.2) from rfl, List.lookup_cons] at h
    rcases List.mem_cons.mp hx with hxa | hxt
    · subst hxa
      have hb : (pid == x.1) = true := by simp [hfst]
      simp only [hb] at h
      exact Option.some.inj h
    · by_cases hb : pid = a.1
      · exfalso
        apply hnd.1
        rw [show a.1 = x.1 by rw [← hb, hfst]]
        exact List.mem_map.mpr ⟨x, hxt, rfl⟩
      · have hb2 : (pid == a.1) = false := by simp [hb]
        rw [hb2] at h
        exact ih hnd.2 h hxt hfst

/-- Under distinct keys, the filter for one present key has exactly one
element. -/
theorem length_filter_key_one {β : Type} {pid : Nat} :
    ∀ {l : List (Nat × β)}, (l.map (fun e => e.1)).Nodup →
      pid ∈ l.map (fun e => e.1) →
      (l.filter (fun x => x.1 == pid)).length = 1 := by
  intro l
  induction l with
  | nil => intro _ h; simp at h
  | cons a t ih =>
    intro hnd hmem
    rw [List.map_cons, List.nodup_cons] at hnd
    by_cases ha : a.1 = pid
    · have ht : t.filter (fun x => x.1 == pid) = [] := by
        rw [List.filter_eq_nil_iff]
        intro x hx hbx
        apply hnd.1
        have hxp : x.1 = pid := by simpa using hbx
        rw [show a.1 = x.1 by rw [ha, hxp]]
        exact List.mem_map.mpr ⟨x, hx, rfl⟩
      simp [List.filter_cons, ha, ht]
    · have hmem2 : pid ∈ t.map (fun e => e.1) := by
        rw [List.map_cons] at hmem
        rcases List.mem_cons.mp hmem with h | h
        · exact absurd h.symm ha
        · exact h
      have hb : (a.1 == pid) = false := by simp [ha]
      simp only [List.filter_cons, hb, Bool.false_eq_true, if_false]
      exact ih hnd.2 hmem2

/-- `List.contains` agrees with membership for `Nat` keys. -/
theorem contains_iff_mem {l : List Nat} {a : Nat} : l.contains a = true ↔ a ∈ l :=
  List.elem_iff

/-- Deactivation does not change document ids. -/
theorem deactivateIds_fst (l : List (Nat × Plan)) (ids : List Nat) :
    (deactivateIds l ids).map (fun p => p.1) = l.map (fun p => p.1) := by
  unfold deactivateIds
  rw [List.map_map]
  exact List.map_congr_left (fun x _ => by
    by_cases h : x.1 ∈ ids <;> simp [h])

/-- Activating one target id does not change document ids. -/
theorem activateId_fst (l : List (Nat × Plan)) (pid : Nat) :
    (l.map (fun q => if q.1 == pid then (q.1, { q.2 with active := true }) else q)).map
        (fun p => p.1) =
      l.map (fun p => p.1) := by
  rw [List.map_map]
  exact List.map_congr_left (fun x _ => by
    by_cases h : x.1 = pid <;> simp [h])

/-- An id bound stated on one list transfers along an id-preserving map. -/
theorem fst_lt_of_map_fst_eq {l l' : List (Nat × Plan)} {n : Nat}
    (hmap : l'.map (fun p => p.1) = l.map (fun p => p.1))
    (h : ∀ y ∈ l, y.1 < n) : ∀ p ∈ l', p.1 < n := by
  intro p hp
  have hmem : p.1 ∈ l.map (fun q => q.1) := by
    rw [← hmap]
    exact List.mem_map.mpr ⟨p, hp, rfl⟩
  rcases List.mem_map.mp hmem with ⟨y, hy, hxy⟩
  rw [← hxy]
  exact h y hy

/-- After batching `active:false` over the snapshot of a user's active plans,
no document of the list is still active for that user: snapshot members were
turned off, and the rest were inactive already. -/
theorem deactivate_snapshot_element (l : List (Nat × Plan)) (uid : String)
    {x : Nat × Plan} (hx : x ∈ l) :
    isActiveOf uid
        (if ((l.filter (isActiveOf uid)).map (fun p => p.1)).contains x.1 = true
          then (x.1, { x.2 with active := false }) else x) = false := by
  by_cases hc : x.1 ∈ (l.filter (isActiveOf uid)).map (fun p => p.1)
  · rw [if_pos (contains_iff_mem.mpr hc)]
    simp [isActiveOf]
  · rw [if_neg (fun hK => hc (contains_iff_mem.mp hK))]
    rcases Bool.eq_false_or_eq_true (isActiveOf uid x) with h | h
    · exact absurd (List.mem_map.mpr ⟨x, List.mem_filter.mpr ⟨hx, h⟩, rfl⟩) hc
    · exact h

/-- The deactivated snapshot list contains no active plan of the user. -/
theorem deactivate_snapshot_filter_nil (l : List (Nat × Plan)) (uid : String) :
    (deactivateIds l ((l.filter (isActiveOf uid)).map (fun p => p.1))).filter
        (isActiveOf uid) = [] := by
  rw [List.filter_eq_nil_iff]
  intro x hx
  rcases List.mem_map.mp hx with ⟨y, hy, hxy⟩
  rw [← hxy]
  simp [deactivate_snapshot_element l uid hy]

/-- A completed `createPlan` leaves the user with exactly one active plan and
preserves well-formedness of the id allocation. -/
theorem createPlan_ok_invariant {st : PlanState} {uid : String} {a : CreatePlanArgs}
    {now : Nat} {st1 : PlanState} {pid : Nat}
    (hwf : wfPlanState st) (h : createPlan st uid a now = .ok (st1, pid)) :
    countActive st1 uid = 1 ∧ wfPlanState st1 := by
  unfold createPlan at h
  split at h
  · exact absurd h (by simp)
  · split at h
    · exact absurd h (by simp)
    · rename_i ts hts
      simp only [Except.ok.injEq, Prod.mk.injEq] at h
      obtain ⟨hst1, hpid⟩ := h
      subst hst1
      have hfresh : st.nextId ∉ (st.plans.filter (isActiveOf uid)).map (fun p => p.1) := by
        intro hK
        rcases List.mem_map.mp hK with ⟨y, hy, hxy⟩
        have := hwf.2 y (List.mem_filter.mp hy).1
        omega
      constructor
      · show ((deactivateIds (st.plans ++ [(st.nextId, _)])
            ((st.plans.filter (isActiveOf uid)).map (fun p => p.1))).filter
            (isActiveOf uid)).length = 1
        unfold deactivateIds
        rw [List.map_append, List.filter_append]
        have h1 := deactivate_snapshot_filter_nil st.plans uid
        unfold deactivateIds at h1
        rw [h1]
        rw [List.map_cons, List.map_nil,
          if_neg (fun hK => hfresh (contains_iff_mem.mp hK))]
        simp [isActiveOf]
      · constructor
        · show ((deactivateIds (st.plans ++ [(st.nextId, _)]) _).map (fun p => p.1)).Nodup
          rw [deactivateIds_fst, List.map_append]
          rw [List.nodup_append]
          refine ⟨hwf.1, by simp, ?_⟩
          intro x hx
          rcases List.mem_map.mp hx with ⟨y, hy, hxy⟩
          have := hwf.2 y hy
          simp only [List.map_cons, List.map_nil, List.mem_singleton]
          omega
        · intro q hq
          show q.1 < st.nextId + 1 + (builtTasks ts).length
          have hb : ∀ y ∈ st.plans ++ [(st.nextId,
              { userId := uid, title := jsTrim a.title, active := true, createdAt := now,
                input := a.input, optimizedAt := none })], y.1 < st.nextId + 1 := by
            intro y hy
            rcases List.mem_append.mp hy with hy | hy
            · have := hwf.2 y hy; omega
            · simp only [List.mem_singleton] at hy
              rw [hy]
              omega
          have := fst_lt_of_map_fst_eq (deactivateIds_fst _ _) hb q hq
          omega

/-- A completed `setPlanActive` leaves the user with exactly one active plan
and preserves well-formedness of the id allocation. -/
theorem setPlanActive_ok_invariant {st : PlanState} {uid : String} {pid : Nat}
    {st1 : PlanState}
    (hwf : wfPlanState st) (h : setPlanActive st uid pid = .ok st1) :
    countActive st1 uid = 1 ∧ wfPlanState st1 := by
  unfold setPlanActive at h
  split at h
  · exact absurd h (by simp)
  · rename_i p hlk
    split at h
    · exact absurd h (by simp)
    · rename_i hown2
      have hown : p.userId = uid := not_not.mp hown2
      simp only [Except.ok.injEq] at h
      subst h
      have hpid_mem : pid ∈ st.plans.map (fun e => e.1) := lookup_mem_fst hlk
      constructor
      · show (((deactivateIds st.plans _).map fun q =>
            if q.1 == pid then (q.1, { q.2 with active := true }) else q).filter
            (isActiveOf uid)).length = 1
        unfold deactivateIds
        rw [List.map_map, ← List.countP_eq_length_filter, List.countP_map]
        rw [List.countP_congr (q := fun x : Nat × Plan => x.1 == pid) ?_]
        · rw [List.countP_eq_length_filter]
          exact length_filter_key_one hwf.1 hpid_mem
        · intro x hx
          show isActiveOf uid
              ((fun q => if q.1 == pid then (q.1, { q.2 with active := true }) else q)
                (if ((st.plans.filter (isActiveOf uid)).map (fun q => q.1)).contains x.1 = true
                  then (x.1, { x.2 with active := false }) else x)) = true ↔
            (x.1 == pid) = true
          by_cases hxp : x.1 = pid
          · have hx2 : x.2 = p := lookup_coherent hwf.1 hlk hx hxp
            by_cases hc : x.1 ∈ (st.plans.filter (isActiveOf uid)).map (fun q => q.1)
            · rw [if_pos (contains_iff_mem.mpr hc)]
              simp [isActiveOf, hxp, hx2, hown]
            · rw [if_neg (fun hK => hc (contains_iff_mem.mp hK))]
              simp [isActiveOf, hxp, hx2, hown]
          · have hoff := deactivate_snapshot_element st.plans uid hx
            by_cases hc : x.1 ∈ (st.plans.filter (isActiveOf uid)).map (fun q => q.1)
            · rw [if_pos (contains_iff_mem.mpr hc)] at hoff ⊢
              simp only [show ((x.1 == pid) = true) = False by simp [hxp]]
              simp [hoff, hxp]
            · rw [if_neg (fun hK => hc (contains_iff_mem.mp hK))] at hoff ⊢
              simp only [show ((x.1 == pid) = true) = False by simp [hxp]]
              simp [hoff, hxp]
      · constructor
        · show (((deactivateIds st.plans (activePlanIds st uid)).map fun q =>
              if q.1 == pid then (q.1, { q.2 with active := true }) else q).map
              (fun p => p.1)).Nodup
          rw [activateId_fst, deactivateIds_fst]
          exact hwf.1
        · intro q hq
          show q.1 < st.nextId
          have hmapeq :
              (((deactivateIds st.plans (activePlanIds st uid)).map fun q =>
                if q.1 == pid then (q.1, { q.2 with active := true }) else q).map
                (fun e => e.1)) = st.plans.map (fun e => e.1) := by
            rw [activateId_fst, deactivateIds_fst]
          exact fst_lt_of_map_fst_eq hmapeq hwf.2 q hq

/-- Each completed or failed plan-manager call preserves the invariant. -/
theorem applyPlanOp_invariant (uid : String) (st : PlanState) (op : PlanOp)
    (h : wfPlanState st ∧ countActive st uid ≤ 1) :
    wfPlanState (applyPlanOp uid st op) ∧ countActive (applyPlanOp uid st op) uid ≤ 1 := by
  cases op with
  | create a now =>
    show wfPlanState (match createPlan st uid a now with
        | .ok r => r.1 | .error _ => st) ∧
      countActive (match createPlan st uid a now with
        | .ok r => r.1 | .error _ => st) uid ≤ 1
    cases hc : createPlan st uid a now with
    | ok r =>
      have hi := createPlan_ok_invariant h.1
        (show createPlan st uid a now = .ok (r.1, r.2) by rw [hc])
      exact ⟨hi.2, le_of_eq hi.1⟩
    | error e => exact h
  | activate pid =>
    show wfPlanState (match setPlanActive st uid pid with
        | .ok st2 => st2 | .error _ => st) ∧
      countActive (match setPlanActive st uid pid with
        | .ok st2 => st2 | .error _ => st) uid ≤ 1
    cases hc : setPlanActive st uid pid with
    | ok st2 =>
      have hi := setPlanActive_ok_invariant h.1 hc
      exact ⟨hi.2, le_of_eq hi.1⟩
    | error e => exact h

/-- C2: for every user and every sequence of `createPlan` / `setPlanActive`
calls executed one after another from a well-formed store with at most one
active plan, at most one of that user's plans has `active = true` afterwards
(0 or 1; every run beginning with a completed call leaves exactly 1).  Calls
that throw write nothing and are modelled as identity. -/
theorem active_plans_at_most_one (uid : String) (ops : List PlanOp) (st : PlanState)
    (hwf : wfPlanState st) (hcnt : countActive st uid ≤ 1) :
    countActive (applyPlanOps uid st ops) uid ≤ 1 := by
  have main : ∀ (rest : List PlanOp) (s : PlanState),
      wfPlanState s ∧ countActive s uid ≤ 1 →
      wfPlanState (applyPlanOps uid s rest) ∧
        countActive (applyPlanOps uid s rest) uid ≤ 1 := by
    intro rest
    induction rest with
    | nil => intro s h; exact h
    | cons op tail ih =>
      intro s h
      exact ih _ (applyPlanOp_invariant uid s op h)
  exact (main ops st ⟨hwf, hcnt⟩).2

/-- Concrete call sequence for the C2 witness: two creations and a switch
back to the first plan. -/
def c2Ops : List PlanOp :=
  [.create { title := "Plan A", tasks := some [{ title := "t1" }] } 1,
   .create { title := "Plan B", tasks := some [] } 2,
   .activate 0]

/-- Witness for C2 from the empty store: after the sequence, at most one plan
is active. -/
theorem active_plans_at_most_one_witness :
    countActive (applyPlanOps "u" {} c2Ops) "u" ≤ 1 :=
  active_plans_at_most_one "u" c2Ops {} (by decide) (by decide)

end StudyOptimizer
